/-
  Verification development for the NCSL AI + Energy/Utilities legislation watcher
  (src/ncsl_ai_energy_watch.py), a scrape → filter → diff → notify pipeline.

  The Python script is shallowly embedded: pure computations (keyword filtering,
  row extraction from parsed table cells, digest formatting, the seen-id diff)
  become Lean functions; effectful steps (HTTP fetch, SMTP send, the state file
  on disk) become explicit inputs/outputs of `main`.  Machine-level details that
  no claim depends on (the exact date string produced by `time.strftime`, URL
  resolution by `urllib.parse.urljoin`) are modelled by small executable
  stand-ins, each documented at its definition.
-/
import Mathlib

namespace NcslWatch

/-! ## String containment, modelling Python's `needle in haystack` -/

/-- `leadsList n h` models "list `n` is an initial segment of list `h`". -/
def leadsList : List Char → List Char → Bool
  | [], _ => true
  | _ :: _, [] => false
  | a :: as, b :: bs => a == b && leadsList as bs

/-- `subList n h` models Python's contiguous-substring test `n in h`
on the underlying character lists (true for the empty needle). -/
def subList (n : List Char) : List Char → Bool
  | [] => n.isEmpty
  | b :: bs => leadsList n (b :: bs) || subList n bs

/-- `inStr needle hay` models the Python expression `needle in hay` on strings. -/
def inStr (needle hay : String) : Bool :=
  subList needle.data hay.data

/-- Python's `str.lower()`, character by character (the keyword lists and the
scraped fields this program lowercases are ASCII, where this agrees with
Python's Unicode lowering). -/
def strLower (s : String) : String :=
  ⟨s.data.map Char.toLower⟩

/-- Python's `sep.join(strs)`. -/
def joinSep (sep : String) : List String → String
  | [] => ""
  | [a] => a
  | a :: b :: rest => a ++ sep ++ joinSep sep (b :: rest)

theorem leadsList_append (l t : List Char) : leadsList l (l ++ t) = true := by
  induction l with
  | nil => rfl
  | cons a as ih => simp [leadsList, ih]

theorem subList_of_leadsList {n h : List Char} (hp : leadsList n h = true) :
    subList n h = true := by
  cases h with
  | nil => cases n with
    | nil => rfl
    | cons a as => simp [leadsList] at hp
  | cons b bs => simp [subList, hp]

theorem subList_append_left {n t : List Char} (a : List Char)
    (hs : subList n t = true) : subList n (a ++ t) = true := by
  induction a with
  | nil => simpa using hs
  | cons x xs ih =>
    cases h : xs ++ t with
    | nil => simp [h] at ih; simp [subList, List.cons_append, h, ih]
    | cons y ys => simp [subList, List.cons_append, h] at ih ⊢; exact Or.inr ih

theorem subList_sandwich (a n b : List Char) : subList n (a ++ n ++ b) = true := by
  rw [List.append_assoc]
  apply subList_append_left a
  exact subList_of_leadsList (leadsList_append n b)

theorem data_append (s t : String) : (s ++ t).data = s.data ++ t.data := by
  cases s; cases t; rfl

/-! ## Keyword groups (lines 79–122 of the source) -/

def CORE_UTILITY : List String := [
  "energy", "electric", "electricity", "utility", "utilities",
  "grid", "transmission", "distribution",
  "ratepayer", "rate payers", "ratemaking", "rate-making",
  "power plant", "power generation",
  "renewable", "solar", "wind",
  "battery", "storage", "energy storage",
  "microgrid", "micro-grid",
  "interconnection"]

def DATA_CENTER_INFRA : List String := [
  "data center", "data centres", "data-center",
  "artificial intelligence infrastructure", "ai infrastructure",
  "compute infrastructure", "server farm",
  "high-performance computing", "hpc",
  "large load", "load growth", "peak load", "demand growth",
  "grid reliability", "capacity planning",
  "electric demand", "megawatt", "mw"]

def CONSUMER_PROTECTION : List String := [
  "consumer protection", "consumer rights",
  "algorithmic pricing",
  "algorithmic decision-making", "automated decision making",
  "billing transparency",
  "public utility commission", "utility commission",
  "regulator", "regulation",
  "rate case", "tariff"]

def CLIMATE_POLICY : List String := [
  "emissions", "carbon", "greenhouse gas", "ghg",
  "climate", "decarbonization", "electrification",
  "building performance", "energy efficiency",
  "demand response"]

def ALL_KEYWORDS : List String :=
  CORE_UTILITY ++ DATA_CENTER_INFRA ++ CONSUMER_PROTECTION ++ CLIMATE_POLICY

/-! ## Bill records and the relevance filter (lines 230–248) -/

/-- One scraped table row, as built by `fetch_table_rows` (the dict at
lines 214–225 of the source). -/
structure Row where
  id : String
  state : String
  bill_number : String
  title : String
  status : String
  summary : String
  category : String
  url : String
deriving DecidableEq

/-- `is_energy_relevant` (lines 230–244): join title, summary and category with
spaces, lowercase, and test every configured keyword for substring occurrence. -/
def is_energy_relevant (row : Row) : Bool :=
  let text := strLower (joinSep " " [row.title, row.summary, row.category])
  ALL_KEYWORDS.any (fun kw => inStr (strLower kw) text)

/-- `filter_relevant` (lines 247–248). -/
def filter_relevant (rows : List Row) : List Row :=
  rows.filter is_energy_relevant

/-! ## Row extraction (`fetch_table_rows`, lines 178–227)

The HTTP fetch and the BeautifulSoup parse are effectful; the extraction loop
over the located table's `<tr>` elements (lines 196–227) is pure once each cell
is abstracted to its extracted text plus its optional first `<a>` anchor. -/

def PAGE_URL : String :=
  "https://www.ncsl.org/technology-and-communication/artificial-intelligence-2025-legislation"

/-- The first `<a>` element found in a cell: its stripped text and its
optional `href` attribute. -/
structure Anchor where
  text : String
  href : Option String
deriving DecidableEq

/-- One `<td>` cell of the located table.  BeautifulSoup's `get_text(...)`
(both the `strip=True` and the `" ", strip=True` form used for the summary)
is abstracted into the pre-extracted `text` field; `link` is the result of
`cell.find("a")`. -/
structure Cell where
  text : String
  link : Option Anchor
deriving DecidableEq

/-- One `<tr>` element: its list of `<td>` cells. -/
structure TableRow where
  cells : List Cell
deriving DecidableEq

/-- Stand-in for `urllib.parse.urljoin(base, ref)`: an absolute reference is
returned as is, a relative one is resolved against the base.  No claim in this
development depends on its exact value. -/
def urljoin (base ref : String) : String :=
  if ref.startsWith "http" then ref else base ++ ref

/-- The record built from the first six cells of a well-formed row
(lines 201–225 of the source). -/
def recordOfCells (c0 c1 c2 c3 c4 c5 : Cell) : Row :=
  let jurisdiction := c0.text
  let bill_number := match c1.link with
    | some a => a.text
    | none => c1.text
  let bill_url := match c1.link with
    | some a => match a.href with
      | some h => urljoin PAGE_URL h
      | none => PAGE_URL
    | none => PAGE_URL
  { id := jurisdiction ++ "::" ++ bill_number
    state := jurisdiction
    bill_number := bill_number
    title := c2.text
    status := c3.text
    summary := c4.text
    category := c5.text
    url := bill_url }

/-- One iteration of the loop body at lines 196–225: a row with fewer than 6
cells is skipped (`continue`), otherwise a record is built from cells 0–5. -/
def extractRow? (tr : TableRow) : Option Row :=
  match tr.cells with
  | c0 :: c1 :: c2 :: c3 :: c4 :: c5 :: _ => some (recordOfCells c0 c1 c2 c3 c4 c5)
  | _ => none

/-- The extraction loop of `fetch_table_rows` (lines 195–227), applied to the
already-located table's rows. -/
def extract_table_rows (trs : List TableRow) : List Row :=
  trs.filterMap extractRow?

/-- The record a well-formed row yields, phrased via positional access with a
default (total so that it can appear under `List.map`). -/
def recordOfTableRow (tr : TableRow) : Row :=
  let d : Cell := ⟨"", none⟩
  recordOfCells (tr.cells.getD 0 d) (tr.cells.getD 1 d) (tr.cells.getD 2 d)
    (tr.cells.getD 3 d) (tr.cells.getD 4 d) (tr.cells.getD 5 d)

/-! ## State store (`load_state` / `save_state`, lines 125–141) -/

/-- The JSON dict persisted in the state file: `{"seen_ids": [...],
"last_digest": n}`.  Timestamps are modelled as integers (the source stores
`int(last_digest)`). -/
structure StateDict where
  seen_ids : List String
  last_digest : Int
deriving DecidableEq

/-- What the state file on disk can look like from `load_state`'s point of
view: missing (`os.path.exists` false), present but unreadable (`open` raises
`OSError`), present but not valid JSON (`json.load` raises
`json.JSONDecodeError`), or a valid JSON state dict. -/
inductive DiskFile
  | absent
  | unreadable
  | corrupt
  | valid (content : StateDict)
deriving DecidableEq

/-- `load_state` (lines 125–132).  A missing file and a JSON-decode failure
both fall through to the default `{"seen_ids": [], "last_digest": 0}`; an
`OSError` raised by `open` on an existing file is NOT caught (the `except`
clause only covers `json.JSONDecodeError`) and propagates to the caller. -/
def load_state : DiskFile → Except String StateDict
  | .absent => .ok ⟨[], 0⟩
  | .unreadable => .error "OSError"
  | .corrupt => .ok ⟨[], 0⟩
  | .valid st => .ok st

/-- `save_state` (lines 135–141): writes `{"seen_ids": sorted(seen_ids),
"last_digest": int(last_digest)}` to the state file. -/
def save_state (seen_ids : Finset String) (last_digest : Int) : DiskFile :=
  .valid ⟨Finset.sort (· ≤ ·) seen_ids, last_digest⟩

/-! ## Digest formatting (`group_by_state` / `format_email`, lines 251–320) -/

/-- The NE + NY priority list (lines 65–73). -/
def NE_PLUS_NY : List String := [
  "Connecticut", "Maine", "Massachusetts", "New Hampshire",
  "Rhode Island", "Vermont", "New York"]

/-- Stand-in for `time.strftime("%Y-%m-%d", time.localtime(ts))`: some
rendering of the timestamp as a date string.  No claim depends on its exact
value, only on where the formatter places it. -/
def strftimeDate (ts : Int) : String :=
  toString (ts / 86400)

/-- Python's `"\n".join(lines)`. -/
def joinLines (lines : List String) : String :=
  joinSep "\n" lines

/-- The rows of `new_rows` belonging to one state, in source order.  This is
the per-state list that `group_by_state` (lines 251–265) accumulates by
appending rows in iteration order. -/
def rowsForState (new_rows : List Row) (s : String) : List Row :=
  new_rows.filter (fun r => r.state == s)

/-- The NE + NY states kept in `top` after empty entries are dropped
(line 264), in `NE_PLUS_NY` order — exactly the states the section loop at
lines 293–303 renders. -/
def topStates (new_rows : List Row) : List String :=
  NE_PLUS_NY.filter (fun s => !(rowsForState new_rows s).isEmpty)

/-- `sorted(others.keys())` (line 309): the distinct non-NE states that occur
in `new_rows`, sorted ascending. -/
def otherStatesSorted (new_rows : List Row) : List String :=
  (((new_rows.map Row.state).filter (fun s => !NE_PLUS_NY.contains s)).dedup).mergeSort
    (fun a b => decide (a ≤ b))

/-- The three lines printed for one bill (lines 301–303 and 315–317). -/
def billLines (b : Row) : List String :=
  ["* " ++ b.bill_number ++ " – " ++ b.title ++ " (" ++ b.status ++ ")",
   "  " ++ b.summary,
   "  " ++ b.url]

/-- The lines printed for one state heading plus its bills
(lines 297–303 / 311–317). -/
def stateSection (new_rows : List Row) (s : String) : List String :=
  ["", s, String.mk (List.replicate s.length '-')] ++
    (rowsForState new_rows s).flatMap billLines

/-- The "=== New England + New York ===" section (lines 291–304), empty when
no NE + NY state has a new bill. -/
def topSectionLines (new_rows : List Row) : List String :=
  if (topStates new_rows).isEmpty then []
  else "=== New England + New York ===" ::
    (topStates new_rows).flatMap (stateSection new_rows) ++ [""]

/-- The "=== Other States ===" section (lines 307–318), empty when every new
bill is from an NE + NY state. -/
def otherSectionLines (new_rows : List Row) : List String :=
  if (otherStatesSorted new_rows).isEmpty then []
  else "=== Other States ===" ::
    (otherStatesSorted new_rows).flatMap (stateSection new_rows) ++ [""]

/-- Line 274–278: the sentence situating the digest in time.  Python's
`if last_digest_ts:` is integer truthiness, i.e. `ts ≠ 0`. -/
def digestDateLine (ts : Int) : String :=
  if ts != 0 then
    "This digest includes bills NEW since the last email on " ++ strftimeDate ts ++ "."
  else
    "This is the first digest; all listed bills are treated as new."

/-- The lines accumulated before the emptiness check (lines 269–282). -/
def headerLines (new_rows : List Row) (last_digest_ts : Int) : List String :=
  ["NCSL – Artificial Intelligence 2025 Legislation (Energy / Utilities Focus)",
   PAGE_URL, "",
   digestDateLine last_digest_ts, "",
   "New relevant bills this digest: " ++ toString new_rows.length, ""]

/-- `format_email` (lines 268–320). -/
def format_email (new_rows : List Row) (last_digest_ts : Int) : String :=
  if new_rows.isEmpty then
    joinLines (headerLines new_rows last_digest_ts ++
      ["No new relevant bills since the last digest."])
  else
    joinLines (headerLines new_rows last_digest_ts ++
      topSectionLines new_rows ++ otherSectionLines new_rows)

/-! ## The run pipeline (`send_email` and `main`, lines 323–376)

`main`'s effectful collaborators become explicit inputs: the state file on
disk, the wall clock `now`, the outcome of `fetch_table_rows` (an exception or
the extracted rows — the `try`/`except` at lines 352–356 catches every
exception that step raises, network and parse alike), and whether an attempted
SMTP delivery would succeed.  The result is the Python call's outcome (normal
return, or an uncaught exception) paired with the state file after the run. -/

/-- The module-level environment configuration (lines 37–47) that `main` and
`send_email` read: the force-send flag, the digest interval, and whether all
of `SMTP_HOST`, `SMTP_USER`, `SMTP_PASS`, `EMAIL_TO` are present (line 324). -/
structure Config where
  force_email : Bool
  digest_days : Int
  smtp_configured : Bool
deriving DecidableEq

/-- How one invocation of `main` ends when no exception escapes it. -/
inductive RunResult
  | skipped
  | fetchFailed
  | noNew
  | digest (new_rows : List Row) (body : String)
deriving DecidableEq

/-- `send_email` (lines 323–337): a no-op when the transport is not fully
configured; otherwise an actual SMTP session, whose failure raises an
exception that `send_email` does not catch. -/
def send_email (cfg : Config) (sendOk : Bool) : Except String Unit :=
  if !cfg.smtp_configured then .ok ()
  else if sendOk then .ok () else .error "SMTPException"

/-- The `DIGEST_DAYS` guard condition (lines 347–348): skip unless forced,
when a previous digest exists and is more recent than the interval. -/
def digestGuard (cfg : Config) (last_digest now : Int) : Bool :=
  !cfg.force_email && last_digest != 0 &&
    decide (now - last_digest < cfg.digest_days * 24 * 3600)

/-- Line 361: the relevant rows whose id is not yet in the seen set, in
source order. -/
def newRowsOf (seen : Finset String) (rows : List Row) : List Row :=
  (filter_relevant rows).filter (fun r => !decide (r.id ∈ seen))

/-- Line 375: the ids of all currently-relevant rows, as a set. -/
def relevantIdsOf (rows : List Row) : Finset String :=
  ((filter_relevant rows).map Row.id).toFinset

/-- `main` (lines 340–376).  Returns the run's outcome (`.error` when an
exception escapes `main`, as happens for an unreadable state file or an SMTP
failure) together with the state file left on disk. -/
def main (disk : DiskFile) (now : Int) (fetched : Except String (List Row))
    (cfg : Config) (sendOk : Bool) : Except String RunResult × DiskFile :=
  match load_state disk with
  | .error e => (.error e, disk)
  | .ok st =>
    let seen_ids : Finset String := st.seen_ids.toFinset
    let last_digest := st.last_digest
    if digestGuard cfg last_digest now then (.ok .skipped, disk)
    else
      match fetched with
      | .error _ => (.ok .fetchFailed, disk)
      | .ok all_rows =>
        let new_rows := newRowsOf seen_ids all_rows
        if new_rows.isEmpty && !cfg.force_email then (.ok .noNew, disk)
        else
          let body := format_email new_rows last_digest
          match send_email cfg sendOk with
          | .error e => (.error e, disk)
          | .ok _ => (.ok (.digest new_rows body),
              save_state (seen_ids ∪ relevantIdsOf all_rows) now)

/-- The seen-id set the next run will work from, i.e. `set(state["seen_ids"])`
after `load_state` on the given disk (empty when loading raises). -/
def loadedSeen (disk : DiskFile) : Finset String :=
  match load_state disk with
  | .ok st => st.seen_ids.toFinset
  | .error _ => ∅

/-- The inputs of one scheduled invocation of `main`. -/
structure RunInput where
  now : Int
  fetched : Except String (List Row)
  cfg : Config
  sendOk : Bool

/-- The state file left after a sequence of scheduled runs. -/
def runAll (disk : DiskFile) : List RunInput → DiskFile
  | [] => disk
  | i :: is => runAll (main disk i.now i.fetched i.cfg i.sendOk).2 is

/-! ## Helper lemmas about the pipeline -/

theorem mem_newRowsOf {seen : Finset String} {rows : List Row} {r : Row} :
    r ∈ newRowsOf seen rows ↔ r ∈ filter_relevant rows ∧ r.id ∉ seen := by
  simp [newRowsOf, List.mem_filter]

theorem loadedSeen_save (S : Finset String) (t : Int) :
    loadedSeen (save_state S t) = S := by
  simp [loadedSeen, save_state, load_state, Finset.sort_toFinset]

theorem loadedSeen_valid (st : StateDict) :
    loadedSeen (.valid st) = st.seen_ids.toFinset := rfl

/-- Forward characterization: when the state loads, the guard is off, there is
something to send (or sending is forced) and the send step returns normally,
`main` produces a digest and saves the union state. -/
theorem main_valid_digest (disk : DiskFile) (st : StateDict) (now : Int)
    (rows : List Row) (cfg : Config) (sendOk : Bool)
    (hld : load_state disk = .ok st)
    (hg : digestGuard cfg st.last_digest now = false)
    (hn : ((newRowsOf st.seen_ids.toFinset rows).isEmpty && !cfg.force_email) = false)
    (hs : send_email cfg sendOk = .ok ()) :
    main disk now (.ok rows) cfg sendOk =
      (.ok (.digest (newRowsOf st.seen_ids.toFinset rows)
        (format_email (newRowsOf st.seen_ids.toFinset rows) st.last_digest)),
       save_state (st.seen_ids.toFinset ∪ relevantIdsOf rows) now) := by
  unfold main
  rw [hld]
  dsimp only
  rw [if_neg (by simp [hg]), if_neg (by simp [hn]), hs]

/-- Inversion: a run that returned a digest loaded its state successfully,
passed the guard, and its reported rows, body and saved file are the canonical
ones. -/
theorem main_digest_inv {disk : DiskFile} {now : Int} {rows : List Row}
    {cfg : Config} {sendOk : Bool} {n : List Row} {b : String} {d' : DiskFile}
    (h : main disk now (.ok rows) cfg sendOk = (.ok (.digest n b), d')) :
    ∃ st, load_state disk = .ok st ∧
      digestGuard cfg st.last_digest now = false ∧
      n = newRowsOf st.seen_ids.toFinset rows ∧
      b = format_email n st.last_digest ∧
      d' = save_state (st.seen_ids.toFinset ∪ relevantIdsOf rows) now := by
  unfold main at h
  cases hld : load_state disk with
  | error e => rw [hld] at h; simp at h
  | ok st =>
    rw [hld] at h
    dsimp only at h
    refine ⟨st, rfl, ?_⟩
    by_cases hg : digestGuard cfg st.last_digest now = true
    · simp [hg] at h
    · rw [if_neg hg] at h
      by_cases hn : ((newRowsOf st.seen_ids.toFinset rows).isEmpty && !cfg.force_email) = true
      · simp [hn] at h
      · rw [if_neg hn] at h
        cases hs : send_email cfg sendOk with
        | error e => rw [hs] at h; simp at h
        | ok u =>
          rw [hs] at h
          have h1 := congrArg Prod.fst h
          have h2 := congrArg Prod.snd h
          simp only [Except.ok.injEq, RunResult.digest.injEq] at h1 h2
          refine ⟨Bool.not_eq_true _ ▸ hg, h1.1.symm, ?_, h2.symm⟩
          rw [h1.1] at h1
          exact h1.2.symm

/-- The only write `main` ever performs is the final `save_state`: the disk
after a run is either untouched or the canonical union save. -/
theorem main_snd_eq_or (disk : DiskFile) (now : Int)
    (fetched : Except String (List Row)) (cfg : Config) (sendOk : Bool) :
    (main disk now fetched cfg sendOk).2 = disk ∨
    ∃ st rows, load_state disk = .ok st ∧ fetched = .ok rows ∧
      (main disk now fetched cfg sendOk).2 =
        save_state (st.seen_ids.toFinset ∪ relevantIdsOf rows) now := by
  unfold main
  cases hld : load_state disk with
  | error e => left; rfl
  | ok st =>
    dsimp only
    by_cases hg : digestGuard cfg st.last_digest now = true
    · left; simp [hg]
    · rw [if_neg hg]
      cases fetched with
      | error e => left; rfl
      | ok rows =>
        dsimp only
        by_cases hn : ((newRowsOf st.seen_ids.toFinset rows).isEmpty && !cfg.force_email) = true
        · left; simp [hn]
        · rw [if_neg hn]
          cases hs : send_email cfg sendOk with
          | error e => left; rfl
          | ok u => right; exact ⟨st, rows, rfl, rfl, rfl⟩

/-- Across any single run, the seen-id set visible to the next run only
grows. -/
theorem loadedSeen_main_mono (disk : DiskFile) (now : Int)
    (fetched : Except String (List Row)) (cfg : Config) (sendOk : Bool) :
    loadedSeen disk ⊆ loadedSeen (main disk now fetched cfg sendOk).2 := by
  rcases main_snd_eq_or disk now fetched cfg sendOk with h | ⟨st, rows, hld, _, h⟩
  · rw [h]
  · rw [h, loadedSeen_save]
    intro x hx
    have : loadedSeen disk = st.seen_ids.toFinset := by simp [loadedSeen, hld]
    rw [this] at hx
    exact Finset.mem_union_left _ hx

/-- Across any sequence of runs, the seen-id set only grows. -/
theorem loadedSeen_runAll_mono (disk : DiskFile) (is : List RunInput) :
    loadedSeen disk ⊆ loadedSeen (runAll disk is) := by
  induction is generalizing disk with
  | nil => exact fun x hx => hx
  | cons i is ih =>
    exact (loadedSeen_main_mono disk i.now i.fetched i.cfg i.sendOk).trans
      (ih (main disk i.now i.fetched i.cfg i.sendOk).2)

/-! ## Helper lemmas about the formatter -/

theorem inStr_joinSep {sep x : String} : ∀ {l : List String}, x ∈ l →
    inStr x (joinSep sep l) = true
  | [], hx => absurd hx (List.not_mem_nil x)
  | [a], hx => by
    rcases List.mem_singleton.mp hx with rfl
    show subList x.data x.data = true
    have h := leadsList_append x.data []
    rw [List.append_nil] at h
    exact subList_of_leadsList h
  | a :: b :: t, hx => by
    rcases List.mem_cons.mp hx with rfl | hxt
    · show subList x.data (x ++ sep ++ joinSep sep (b :: t)).data = true
      rw [data_append, data_append, List.append_assoc]
      have h := leadsList_append x.data (sep.data ++ (joinSep sep (b :: t)).data)
      exact subList_of_leadsList h
    · show subList x.data (a ++ sep ++ joinSep sep (b :: t)).data = true
      rw [data_append, data_append, List.append_assoc]
      exact subList_append_left _ (subList_append_left sep.data (inStr_joinSep hxt))

theorem inStr_joinLines {x : String} {l : List String} (hx : x ∈ l) :
    inStr x (joinLines l) = true :=
  inStr_joinSep hx

theorem inStr_ne_empty {x hay : String} (hx : x ≠ "") (h : inStr x hay = true) :
    hay ≠ "" := by
  intro he
  subst he
  unfold inStr subList at h
  rw [List.isEmpty_iff] at h
  exact hx (by cases x; simp_all)

/-! ## Helper lemmas about extraction -/

theorem extractRow?_eq_some {tr : TableRow} (h : 6 ≤ tr.cells.length) :
    extractRow? tr = some (recordOfTableRow tr) := by
  rcases tr with ⟨cells⟩
  rcases cells with _ | ⟨c0, _ | ⟨c1, _ | ⟨c2, _ | ⟨c3, _ | ⟨c4, _ | ⟨c5, cs⟩⟩⟩⟩⟩⟩ <;>
    simp_all [extractRow?, recordOfTableRow]

theorem extractRow?_eq_none {tr : TableRow} (h : tr.cells.length < 6) :
    extractRow? tr = none := by
  rcases tr with ⟨cells⟩
  rcases cells with _ | ⟨c0, _ | ⟨c1, _ | ⟨c2, _ | ⟨c3, _ | ⟨c4, _ | ⟨c5, cs⟩⟩⟩⟩⟩⟩ <;>
    first
    | (simp_all [extractRow?]; done)
    | (simp_all [extractRow?]; omega)

/-- When every currently-relevant id is already in the seen set, the diff is
empty. -/
theorem newRowsOf_superset_nil {s : Finset String} {rows : List Row}
    (hsub : relevantIdsOf rows ⊆ s) : newRowsOf s rows = [] := by
  rw [newRowsOf, List.filter_eq_nil_iff]
  intro r hr
  have : r.id ∈ relevantIdsOf rows := by
    simp only [relevantIdsOf, List.mem_toFinset, List.mem_map]
    exact ⟨r, hr, rfl⟩
  simp [hsub this]

/-! ## Concrete sample data, used by witnesses and counterexamples -/

/-- The empty default state `{"seen_ids": [], "last_digest": 0}`. -/
def emptyState : StateDict := ⟨[], 0⟩

/-- A relevant Connecticut bill (its title contains the keyword "energy"). -/
def rowCT1 : Row :=
  { id := "Connecticut::SB1", state := "Connecticut", bill_number := "SB1",
    title := "An act concerning energy procurement", status := "Introduced",
    summary := "Requires utilities to report demand.", category := "Energy",
    url := "https://example.org/ct-sb1" }

/-- A relevant Maine bill (its title contains the keyword "electricity"). -/
def rowME1 : Row :=
  { id := "Maine::LD2", state := "Maine", bill_number := "LD2",
    title := "Data center electricity use", status := "In committee",
    summary := "Study of load growth.", category := "Oversight",
    url := "https://example.org/me-ld2" }

/-- A relevant Texas bill (its title contains the keyword "utility"). -/
def rowTX1 : Row :=
  { id := "Texas::HB3", state := "Texas", bill_number := "HB3",
    title := "Artificial intelligence in utility regulation", status := "Passed",
    summary := "Commission reporting.", category := "Utilities",
    url := "https://example.org/tx-hb3" }

/-- Default configuration: no force flag, 14-day interval, SMTP unconfigured
(so the send step is a documented no-op). -/
def cfgDefault : Config :=
  { force_email := false, digest_days := 14, smtp_configured := false }

/-- Same but with a fully configured SMTP transport. -/
def cfgSmtp : Config :=
  { force_email := false, digest_days := 14, smtp_configured := true }

/-- A prior state in which `rowCT1`'s id has already been seen. -/
def stSeenCT : StateDict := ⟨["Connecticut::SB1"], 0⟩

/-- The three-record input of the idempotence scenario. -/
def rows3 : List Row := [rowCT1, rowME1, rowTX1]

/-- Whether a `main` invocation returned normally (no exception escaped). -/
def returnsNormally : Except String RunResult → Bool
  | .ok _ => true
  | .error _ => false

/-- When the transport is configured and the SMTP session fails, the exception
raised inside `send_email` escapes `main` — there is no handler around the
send — and no state is written. -/
theorem main_send_fail (disk : DiskFile) (st : StateDict) (now : Int)
    (rows : List Row) (cfg : Config)
    (hld : load_state disk = .ok st)
    (hg : digestGuard cfg st.last_digest now = false)
    (hn : ((newRowsOf st.seen_ids.toFinset rows).isEmpty && !cfg.force_email) = false)
    (hc : cfg.smtp_configured = true) :
    main disk now (.ok rows) cfg false = (.error "SMTPException", disk) := by
  unfold main
  rw [hld]
  dsimp only
  rw [if_neg (by simp [hg]), if_neg (by simp [hn])]
  rw [show send_email cfg false = .error "SMTPException" by simp [send_email, hc]]

/-! ## The claims -/

/-- C1: a relevant record is reported as new iff its id is absent from the
seen-id set loaded from prior state, and once an id has been included in a
digest it is marked seen permanently: any later digest, after any interleaved
run sequence, contains no record with that id — even though later records with
that id may carry different title/status/category fields (the statement
quantifies over arbitrary `rows₂`, constraining only ids). -/
theorem c1_seen_id_policy {disk : DiskFile} {now : Int} {rows : List Row}
    {cfg : Config} {sendOk : Bool} {n : List Row} {b : String} {d' : DiskFile}
    (h : main disk now (.ok rows) cfg sendOk = (.ok (.digest n b), d')) :
    (∀ r ∈ filter_relevant rows, (r ∈ n ↔ r.id ∉ loadedSeen disk)) ∧
    (∀ (is : List RunInput) (now₂ : Int) (rows₂ : List Row) (cfg₂ : Config)
        (sendOk₂ : Bool) (n₂ : List Row) (b₂ : String) (d₂ : DiskFile),
      main (runAll d' is) now₂ (.ok rows₂) cfg₂ sendOk₂ = (.ok (.digest n₂ b₂), d₂) →
      ∀ x ∈ n.map Row.id, x ∉ n₂.map Row.id) := by
  obtain ⟨st, hld, hg, hn, hb, hd⟩ := main_digest_inv h
  have hseen : loadedSeen disk = st.seen_ids.toFinset := by simp [loadedSeen, hld]
  constructor
  · intro r hr
    rw [hseen, hn]
    exact ⟨fun hmem => (mem_newRowsOf.mp hmem).2, fun hid => mem_newRowsOf.mpr ⟨hr, hid⟩⟩
  · intro is now₂ rows₂ cfg₂ sendOk₂ n₂ b₂ d₂ h₂ x hx hx₂
    obtain ⟨st₂, hld₂, hg₂, hn₂, _, _⟩ := main_digest_inv h₂
    obtain ⟨r, hrn, hrid⟩ := List.mem_map.mp hx
    have hrel : r ∈ filter_relevant rows := (mem_newRowsOf.mp (hn ▸ hrn)).1
    have hx_rel : x ∈ relevantIdsOf rows := by
      simp only [relevantIdsOf, List.mem_toFinset, List.mem_map]
      exact ⟨r, hrel, hrid⟩
    have hx_d' : x ∈ loadedSeen d' := by
      rw [hd, loadedSeen_save]
      exact Finset.mem_union_right _ hx_rel
    have hx_later : x ∈ loadedSeen (runAll d' is) := loadedSeen_runAll_mono d' is hx_d'
    have hseen₂ : loadedSeen (runAll d' is) = st₂.seen_ids.toFinset := by
      simp [loadedSeen, hld₂]
    obtain ⟨r₂, hr₂n, hr₂id⟩ := List.mem_map.mp hx₂
    have hnot := (mem_newRowsOf.mp (hn₂ ▸ hr₂n)).2
    rw [hr₂id] at hnot
    exact hnot (hseen₂ ▸ hx_later)

/-- Witness for C1 at a concrete run: the first digest from the empty default
state, containing the relevant record `rowCT1`. -/
theorem c1_seen_id_policy_witness :
    rowCT1 ∈ filter_relevant [rowCT1] ∧
    (rowCT1 ∈ newRowsOf emptyState.seen_ids.toFinset [rowCT1] ↔
      rowCT1.id ∉ loadedSeen (.valid emptyState)) := by
  have h := main_valid_digest (.valid emptyState) emptyState 100 [rowCT1] cfgDefault true rfl
    (by decide) (by decide) rfl
  exact ⟨by decide, (c1_seen_id_policy h).1 rowCT1 (by decide)⟩

/-- C2: after a digest run whose state was saved, re-running `main` on the
identical input rows (once the time guard allows a run at all) reports no new
records and leaves the state file unchanged. -/
theorem c2_rerun_reports_nothing {disk : DiskFile} {now : Int} {rows : List Row}
    {cfg : Config} {sendOk : Bool} {n : List Row} {b : String} {d' : DiskFile}
    (h : main disk now (.ok rows) cfg sendOk = (.ok (.digest n b), d'))
    {now₂ : Int} {cfg₂ : Config} {sendOk₂ : Bool}
    (hg₂ : digestGuard cfg₂ now now₂ = false)
    (hf₂ : cfg₂.force_email = false) :
    main d' now₂ (.ok rows) cfg₂ sendOk₂ = (.ok .noNew, d') := by
  obtain ⟨st, hld, hg, hn, hb, hd⟩ := main_digest_inv h
  subst hd
  unfold main
  rw [show load_state (save_state (st.seen_ids.toFinset ∪ relevantIdsOf rows) now) =
      .ok ⟨Finset.sort (· ≤ ·) (st.seen_ids.toFinset ∪ relevantIdsOf rows), now⟩ from rfl]
  dsimp only
  rw [if_neg (by simp [hg₂])]
  have hnil : newRowsOf
      (Finset.sort (· ≤ ·) (st.seen_ids.toFinset ∪ relevantIdsOf rows)).toFinset rows = [] := by
    rw [Finset.sort_toFinset]
    exact newRowsOf_superset_nil Finset.subset_union_right
  rw [hnil, if_pos (by simp [hf₂])]

/-- Witness for C2, Scenario A: from the empty default state the three
relevant records `rows3` are all reported new, and after the save a re-run
with identical input (past the time guard) reports nothing. -/
theorem c2_rerun_reports_nothing_witness :
    newRowsOf emptyState.seen_ids.toFinset rows3 = rows3 ∧
    main (save_state (emptyState.seen_ids.toFinset ∪ relevantIdsOf rows3) 100) 1209700
        (.ok rows3) cfgDefault true =
      (.ok .noNew, save_state (emptyState.seen_ids.toFinset ∪ relevantIdsOf rows3) 100) := by
  have h := main_valid_digest (.valid emptyState) emptyState 100 rows3 cfgDefault true rfl
    (by decide) (by decide) rfl
  exact ⟨by decide, c2_rerun_reports_nothing h (by decide) rfl⟩

/-- C3: extraction equals "keep exactly the rows with at least 6 cells, in
source order, and build each record from its first six cells" — so `k`
well-formed rows interleaved with `m` short rows yield exactly `k` records. -/
theorem c3_extraction_skips_short_rows (trs : List TableRow) :
    extract_table_rows trs =
      (trs.filter (fun tr => decide (6 ≤ tr.cells.length))).map recordOfTableRow ∧
    (extract_table_rows trs).length =
      (trs.filter (fun tr => decide (6 ≤ tr.cells.length))).length := by
  have key : extract_table_rows trs =
      (trs.filter (fun tr => decide (6 ≤ tr.cells.length))).map recordOfTableRow := by
    induction trs with
    | nil => rfl
    | cons tr rest ih =>
      by_cases h6 : 6 ≤ tr.cells.length
      · show List.filterMap extractRow? (tr :: rest) = _
        rw [List.filterMap_cons, extractRow?_eq_some h6,
          List.filter_cons_of_pos (by simpa using h6), List.map_cons]
        exact congrArg _ ih
      · show List.filterMap extractRow? (tr :: rest) = _
        rw [List.filterMap_cons, extractRow?_eq_none (by omega),
          List.filter_cons_of_neg (by simpa using h6)]
        exact ih
  exact ⟨key, by rw [key, List.length_map]⟩

/-- C4: when the fetch/scrape step raises, the run leaves the state file
bit-for-bit unchanged, and — whenever the run actually reached the fetch —
returns the logged fetch-failure outcome rather than saving anything. -/
theorem c4_fetch_abort_no_mutation (disk : DiskFile) (now : Int) (e : String)
    (cfg : Config) (sendOk : Bool) :
    (main disk now (.error e) cfg sendOk).2 = disk ∧
    (∀ st, load_state disk = .ok st → digestGuard cfg st.last_digest now = false →
      (main disk now (.error e) cfg sendOk).1 = .ok .fetchFailed) := by
  constructor
  · rcases main_snd_eq_or disk now (.error e) cfg sendOk with h | ⟨st, rows, _, hf, _⟩
    · exact h
    · exact absurd hf (by simp)
  · intro st hld hg
    unfold main
    rw [hld]
    dsimp only
    rw [if_neg (by simp [hg])]

/-- Witness for C4 at a concrete failing fetch. -/
theorem c4_fetch_abort_no_mutation_witness :
    (main (.valid emptyState) 5 (.error "ConnectionError") cfgDefault true).2 =
      .valid emptyState ∧
    (main (.valid emptyState) 5 (.error "ConnectionError") cfgDefault true).1 =
      .ok .fetchFailed :=
  ⟨(c4_fetch_abort_no_mutation (.valid emptyState) 5 "ConnectionError" cfgDefault true).1,
   (c4_fetch_abort_no_mutation (.valid emptyState) 5 "ConnectionError" cfgDefault true).2
     emptyState rfl (by decide)⟩

/-- C5: `save_state` followed by `load_state` reproduces an equivalent state:
the seen-id set (as the next run's `set(...)` sees it) and the timestamp are
exactly what was saved. -/
theorem c5_save_load_roundtrip (seen : Finset String) (ts : Int) :
    (load_state (save_state seen ts)).map
      (fun st => (st.seen_ids.toFinset, st.last_digest)) = .ok (seen, ts) := by
  simp [load_state, save_state, Except.map, Finset.sort_toFinset]

/-- C6 counterexample: an existing-but-unreadable state file makes
`load_state` raise (only `json.JSONDecodeError` is caught, not `OSError`), so
it does not return the empty default state. -/
theorem c6_load_counterexample :
    load_state DiskFile.unreadable = .error "OSError" ∧
    load_state DiskFile.unreadable ≠ .ok emptyState :=
  ⟨rfl, fun h => Except.noConfusion h⟩

/-- C6 (amended): on a missing state file, or a corrupt one whose contents
fail JSON decoding, `load_state` returns the empty default state without
raising; only the unreadable-file case raises. -/
theorem c6_load_defaults :
    load_state DiskFile.absent = .ok emptyState ∧
    load_state DiskFile.corrupt = .ok emptyState :=
  ⟨rfl, rfl⟩

/-- C7 counterexample: with the transport configured and the SMTP session
failing, the exception escapes the top-level pipeline invocation (`main`
evaluates to `.error`, i.e. the process does not exit cleanly). -/
theorem c7_propagation_counterexample :
    main (.valid emptyState) 100 (.ok [rowCT1]) cfgSmtp false =
      (.error "SMTPException", .valid emptyState) ∧
    returnsNormally (main (.valid emptyState) 100 (.ok [rowCT1]) cfgSmtp false).1 = false := by
  have h := main_send_fail (.valid emptyState) emptyState 100 [rowCT1] cfgSmtp rfl
    (by decide) (by decide) rfl
  exact ⟨h, by rw [h]; rfl⟩

/-- C7 (amended): fetch/scrape failures are handled at the run boundary and
`main` returns normally; but a transport failure during an actual send (SMTP
configured) propagates out of the pipeline invocation, leaving the persisted
state unwritten. -/
theorem c7_error_boundary :
    (∀ (st : StateDict) (now : Int) (e : String) (cfg : Config) (sendOk : Bool),
      returnsNormally (main (.valid st) now (.error e) cfg sendOk).1 = true) ∧
    (∀ (disk : DiskFile) (st : StateDict) (now : Int) (rows : List Row) (cfg : Config),
      load_state disk = .ok st →
      digestGuard cfg st.last_digest now = false →
      ((newRowsOf st.seen_ids.toFinset rows).isEmpty && !cfg.force_email) = false →
      cfg.smtp_configured = true →
      main disk now (.ok rows) cfg false = (.error "SMTPException", disk)) := by
  constructor
  · intro st now e cfg sendOk
    unfold main
    dsimp only [load_state]
    by_cases hg : digestGuard cfg st.last_digest now = true
    · rw [if_pos hg]
      rfl
    · rw [if_neg hg]
      rfl
  · intro disk st now rows cfg hld hg hn hc
    exact main_send_fail disk st now rows cfg hld hg hn hc

/-- Witness for C7 (amended) at concrete runs: a handled fetch failure and a
propagating send failure. -/
theorem c7_error_boundary_witness :
    returnsNormally (main (.valid emptyState) 5 (.error "boom") cfgSmtp true).1 = true ∧
    main (.valid emptyState) 100 (.ok [rowCT1]) cfgSmtp false =
      (.error "SMTPException", .valid emptyState) :=
  ⟨c7_error_boundary.1 emptyState 5 "boom" cfgSmtp true,
   c7_error_boundary.2 (.valid emptyState) emptyState 100 [rowCT1] cfgSmtp rfl
     (by decide) (by decide) rfl⟩

/-- C8: the digest formatted for zero new records contains the explicit
"no changes" sentence and is never the empty string. -/
theorem c8_empty_digest_not_empty (ts : Int) :
    inStr "No new relevant bills since the last digest." (format_email [] ts) = true ∧
    format_email [] ts ≠ "" := by
  have h1 : inStr "No new relevant bills since the last digest."
      (format_email [] ts) = true := by
    unfold format_email
    rw [if_pos (show ([] : List Row).isEmpty = true from rfl)]
    exact inStr_joinLines (by simp)
  exact ⟨h1, inStr_ne_empty (by decide) h1⟩

/-- C9 counterexample: two runs whose inputs have different totals of
currently-relevant records (2 vs 1) but the same new records produce
character-identical digests — the report is not a function of the total
relevant count and does not state it. -/
theorem c9_total_count_counterexample :
    (filter_relevant [rowCT1, rowTX1]).length = 2 ∧
    (filter_relevant [rowTX1]).length = 1 ∧
    (main (.valid stSeenCT) 0 (.ok [rowCT1, rowTX1]) cfgDefault true).1 =
      (main (.valid stSeenCT) 0 (.ok [rowTX1]) cfgDefault true).1 := by
  have e1 := main_valid_digest (.valid stSeenCT) stSeenCT 0 [rowCT1, rowTX1] cfgDefault true rfl
    (by decide) (by decide) rfl
  have e2 := main_valid_digest (.valid stSeenCT) stSeenCT 0 [rowTX1] cfgDefault true rfl
    (by decide) (by decide) rfl
  have hnew : newRowsOf stSeenCT.seen_ids.toFinset [rowCT1, rowTX1] =
      newRowsOf stSeenCT.seen_ids.toFinset [rowTX1] := by decide
  have f1 : (main (.valid stSeenCT) 0 (.ok [rowCT1, rowTX1]) cfgDefault true).1 =
      .ok (.digest (newRowsOf stSeenCT.seen_ids.toFinset [rowCT1, rowTX1])
        (format_email (newRowsOf stSeenCT.seen_ids.toFinset [rowCT1, rowTX1])
          stSeenCT.last_digest)) := by
    rw [e1]
  have f2 : (main (.valid stSeenCT) 0 (.ok [rowTX1]) cfgDefault true).1 =
      .ok (.digest (newRowsOf stSeenCT.seen_ids.toFinset [rowTX1])
        (format_email (newRowsOf stSeenCT.seen_ids.toFinset [rowTX1])
          stSeenCT.last_digest)) := by
    rw [e2]
  refine ⟨by decide, by decide, ?_⟩
  rw [f1, f2, hnew]

/-- C9 (amended): the digest formatter is a function of the changed records
and the last-digest timestamp alone; its report states the count of new
records (it does not receive or state the total relevant count). -/
theorem c9_formatter_states_new_count (new_rows : List Row) (ts : Int) :
    inStr ("New relevant bills this digest: " ++ toString new_rows.length)
      (format_email new_rows ts) = true := by
  unfold format_email
  by_cases h : new_rows.isEmpty = true
  · rw [if_pos h]
    exact inStr_joinLines (by simp [headerLines])
  · rw [if_neg h]
    exact inStr_joinLines (by simp [headerLines])

/-- C10: whenever a run persists state, the seen-id set visible to the next
run is exactly the union of the set loaded at run start with the ids of all
currently-relevant records; the loaded set only ever grows, across this run
and across every run. -/
theorem c10_persisted_union {disk : DiskFile} {now : Int} {rows : List Row}
    {cfg : Config} {sendOk : Bool} {n : List Row} {b : String} {d' : DiskFile}
    (h : main disk now (.ok rows) cfg sendOk = (.ok (.digest n b), d')) :
    loadedSeen d' = loadedSeen disk ∪ relevantIdsOf rows ∧
    loadedSeen disk ⊆ loadedSeen d' ∧
    (∀ r ∈ filter_relevant rows, r.id ∈ loadedSeen d') ∧
    (∀ (dk : DiskFile) (i : RunInput),
      loadedSeen dk ⊆ loadedSeen (main dk i.now i.fetched i.cfg i.sendOk).2) := by
  obtain ⟨st, hld, hg, hn, hb, hd⟩ := main_digest_inv h
  have hseen : loadedSeen disk = st.seen_ids.toFinset := by simp [loadedSeen, hld]
  have hkey : loadedSeen d' = loadedSeen disk ∪ relevantIdsOf rows := by
    rw [hd, loadedSeen_save, hseen]
  refine ⟨hkey, ?_, ?_, ?_⟩
  · rw [hkey]; exact Finset.subset_union_left
  · intro r hr
    rw [hkey]
    apply Finset.mem_union_right
    simp only [relevantIdsOf, List.mem_toFinset, List.mem_map]
    exact ⟨r, hr, rfl⟩
  · intro dk i
    exact loadedSeen_main_mono dk i.now i.fetched i.cfg i.sendOk

/-- Witness for C10 at a concrete digest run from the empty default state. -/
theorem c10_persisted_union_witness :
    loadedSeen (save_state (emptyState.seen_ids.toFinset ∪ relevantIdsOf [rowCT1]) 100) =
      loadedSeen (.valid emptyState) ∪ relevantIdsOf [rowCT1] ∧
    rowCT1.id ∈
      loadedSeen (save_state (emptyState.seen_ids.toFinset ∪ relevantIdsOf [rowCT1]) 100) := by
  have h := main_valid_digest (.valid emptyState) emptyState 100 [rowCT1] cfgDefault true rfl
    (by decide) (by decide) rfl
  exact ⟨(c10_persisted_union h).1, (c10_persisted_union h).2.2.1 rowCT1 (by decide)⟩

end NcslWatch
